import Mathlib

/-!
Shallow embedding of `src/vcr/patch.py` (vcrpy's cassette patching
subsystem) and proofs about the claims of its specification.

Python classes are modelled by `Klass` values whose identity is a
natural number and whose `cassette` field models the `cassette` class
attribute (`none` = Python `None`, `some s` = bound to the session with
identity `s`).  The builder's mutable state (`_class_to_cassette_subclass`
plus the fresh-type counter used to give newly synthesized types their
identity) is threaded explicitly.
-/

namespace VcrPatch

/-- A Python class object: `kid` is its object identity, `cassette` the
value of its `cassette` class attribute (`none` models Python `None`). -/
structure Klass where
  kid : Nat
  cassette : Option Nat
deriving DecidableEq

/-- The mutable state of a `CassettePatcherBuilder`: the identity of
`self._cassette`, the `_class_to_cassette_subclass` mapping (keyed by the
identity of the base class, as a Python dict keyed by class objects is),
and a counter supplying the identity of freshly created type objects. -/
structure BuilderState where
  sessionId : Nat
  cache : List (Nat × Klass)
  fresh : Nat
deriving DecidableEq

/-- Association-list lookup, modelling a Python dict lookup keyed by
class identity. -/
def lookupCache : List (Nat × Klass) → Nat → Option Klass
  | [], _ => none
  | (k0, v) :: rest, k => if k0 = k then some v else lookupCache rest k

/-- `CassettePatcherBuilder._build_cassette_subclass`: synthesize a new
type deriving from the base class whose `cassette` attribute is the
builder's cassette; the new type object gets a fresh identity. -/
def buildCassetteSubclass (st : BuilderState) : Klass × BuilderState :=
  (⟨st.fresh, some st.sessionId⟩, ⟨st.sessionId, st.cache, st.fresh + 1⟩)

/-- `CassettePatcherBuilder._get_cassette_subclass`:
if `klass.cassette is not None`, return `klass` unchanged; otherwise
look `klass` up in `_class_to_cassette_subclass`, on a miss synthesize a
subclass via `_build_cassette_subclass` and cache it, and return the
cached subclass. -/
def getCassetteSubclass (st : BuilderState) (k : Klass) : Klass × BuilderState :=
  if k.cassette ≠ none then (k, st)
  else
    match lookupCache st.cache k.kid with
    | some sub => (sub, st)
    | none =>
      let r := buildCassetteSubclass st
      (r.1, ⟨r.2.sessionId, (k.kid, r.1) :: r.2.cache, r.2.fresh⟩)

/-- Well-formedness of the builder's cache: every cached substitute is a
type whose `cassette` attribute is the builder's own cassette.  This
holds of the empty cache a fresh builder starts from and is preserved by
`getCassetteSubclass`. -/
def CacheWF (st : BuilderState) : Prop :=
  ∀ p ∈ st.cache, p.2.cassette = some st.sessionId

instance (st : BuilderState) : Decidable (CacheWF st) := by
  unfold CacheWF; infer_instance

theorem getCassetteSubclass_bound (st : BuilderState) (k : Klass)
    (h : k.cassette ≠ none) : getCassetteSubclass st k = (k, st) := by
  unfold getCassetteSubclass
  rw [if_pos h]

theorem getCassetteSubclass_cached (st : BuilderState) (k : Klass) (sub : Klass)
    (h : k.cassette = none) (hl : lookupCache st.cache k.kid = some sub) :
    getCassetteSubclass st k = (sub, st) := by
  unfold getCassetteSubclass
  rw [if_neg (by simp [h]), hl]

theorem getCassetteSubclass_miss (st : BuilderState) (k : Klass)
    (h : k.cassette = none) (hl : lookupCache st.cache k.kid = none) :
    getCassetteSubclass st k =
      (⟨st.fresh, some st.sessionId⟩,
       ⟨st.sessionId, (k.kid, ⟨st.fresh, some st.sessionId⟩) :: st.cache, st.fresh + 1⟩) := by
  unfold getCassetteSubclass
  rw [if_neg (by simp [h]), hl]
  rfl

theorem lookupCache_mem (cache : List (Nat × Klass)) (key : Nat) (sub : Klass)
    (hl : lookupCache cache key = some sub) : ∃ p ∈ cache, p.2 = sub := by
  induction cache with
  | nil => simp [lookupCache] at hl
  | cons hd tl ih =>
    by_cases hh : hd.1 = key
    · refine ⟨hd, List.mem_cons_self _ _, ?_⟩
      unfold lookupCache at hl
      rw [if_pos hh] at hl
      exact Option.some.inj hl
    · unfold lookupCache at hl
      rw [if_neg hh] at hl
      obtain ⟨p, hp, hpe⟩ := ih hl
      exact ⟨p, List.mem_cons_of_mem _ hp, hpe⟩

theorem cacheWF_preserved (st : BuilderState) (k : Klass) (h : CacheWF st) :
    CacheWF (getCassetteSubclass st k).2 := by
  by_cases hc : k.cassette = none
  · cases hl : lookupCache st.cache k.kid with
    | some sub => rw [getCassetteSubclass_cached st k sub hc hl]; exact h
    | none =>
      rw [getCassetteSubclass_miss st k hc hl]
      intro p hp
      rcases List.mem_cons.mp hp with hp | hp
      · subst hp; rfl
      · exact h p hp
  · rw [getCassetteSubclass_bound st k hc]; exact h

theorem getCassetteSubclass_changed (st : BuilderState) (k : Klass)
    (hwf : CacheWF st) (hk : k.cassette = none) :
    (getCassetteSubclass st k).1 ≠ k ∧
    (getCassetteSubclass st k).1.cassette = some st.sessionId := by
  cases hl : lookupCache st.cache k.kid with
  | some sub =>
    rw [getCassetteSubclass_cached st k sub hk hl]
    obtain ⟨p, hp, hpe⟩ := lookupCache_mem st.cache k.kid sub hl
    have hsub : sub.cassette = some st.sessionId := by rw [← hpe]; exact hwf p hp
    refine ⟨?_, hsub⟩
    intro he
    have he2 : sub = k := he
    rw [he2, hk] at hsub
    exact Option.noConfusion hsub
  | none =>
    rw [getCassetteSubclass_miss st k hk hl]
    refine ⟨?_, rfl⟩
    intro he
    have he2 : (⟨st.fresh, some st.sessionId⟩ : Klass) = k := he
    have : (⟨st.fresh, some st.sessionId⟩ : Klass).cassette = k.cassette := by rw [he2]
    rw [hk] at this
    exact Option.noConfusion this

/-- Claim C1, counterexample: a base type bound to a *different* session
(cassette `1`, while the builder's own cassette is `0`) is returned
unchanged by `_get_cassette_subclass`, contradicting the claim that only
a binding to this exact session is returned unchanged. -/
theorem getCassetteSubclass_foreign_binding_counterexample :
    getCassetteSubclass ⟨0, [], 10⟩ ⟨5, some 1⟩ = (⟨5, some 1⟩, ⟨0, [], 10⟩) ∧
    (⟨5, some 1⟩ : Klass).cassette ≠ some (0 : Nat) := by
  exact ⟨rfl, by decide⟩

/-- Claim C1 (amended): for a builder with a well-formed cache,
`_get_cassette_subclass` returns the input type unchanged iff the input
carries *any* non-`None` session binding (not necessarily to this
session); only an unbound base type is rewritten, and the rewritten
result is bound to this builder's own session. -/
theorem getCassetteSubclass_unchanged_iff (st : BuilderState) (k : Klass)
    (hwf : CacheWF st) :
    ((getCassetteSubclass st k).1 = k ↔ k.cassette ≠ none) ∧
    (k.cassette = none → (getCassetteSubclass st k).1.cassette = some st.sessionId) := by
  by_cases hk : k.cassette = none
  · obtain ⟨hne, hcas⟩ := getCassetteSubclass_changed st k hwf hk
    refine ⟨⟨fun he => absurd he hne, fun hne2 => absurd hk hne2⟩, fun _ => hcas⟩
  · rw [getCassetteSubclass_bound st k hk]
    exact ⟨⟨fun _ => hk, fun _ => rfl⟩, fun hnone => absurd hnone hk⟩

/-- Claim C1, witness for the amended theorem at a concrete input. -/
theorem getCassetteSubclass_unchanged_iff_witness :
    CacheWF ⟨0, [], 10⟩ ∧
    (((getCassetteSubclass ⟨0, [], 10⟩ ⟨5, none⟩).1 = ⟨5, none⟩ ↔
        (⟨5, none⟩ : Klass).cassette ≠ none) ∧
     ((⟨5, none⟩ : Klass).cassette = none →
        (getCassetteSubclass ⟨0, [], 10⟩ ⟨5, none⟩).1.cassette = some 0)) :=
  ⟨by decide, getCassetteSubclass_unchanged_iff ⟨0, [], 10⟩ ⟨5, none⟩ (by decide)⟩

/-- Claim C2: for a base class with no existing session binding, two
calls to `_get_cassette_subclass` on the same builder return the
identical type object and the second call leaves the builder state
unchanged; moreover the cache then holds that one substitute for the
base class. -/
theorem getCassetteSubclass_idempotent (st : BuilderState) (k : Klass)
    (h : k.cassette = none) :
    (getCassetteSubclass (getCassetteSubclass st k).2 k).1 = (getCassetteSubclass st k).1 ∧
    (getCassetteSubclass (getCassetteSubclass st k).2 k).2 = (getCassetteSubclass st k).2 ∧
    lookupCache (getCassetteSubclass st k).2.cache k.kid = some (getCassetteSubclass st k).1 := by
  cases hl : lookupCache st.cache k.kid with
  | some sub =>
    have e1 := getCassetteSubclass_cached st k sub h hl
    simp only [e1]
    exact ⟨trivial, trivial, hl⟩
  | none =>
    have e1 := getCassetteSubclass_miss st k h hl
    simp only [e1]
    have hl2 : lookupCache
        ((k.kid, (⟨st.fresh, some st.sessionId⟩ : Klass)) :: st.cache) k.kid =
        some ⟨st.fresh, some st.sessionId⟩ := by
      unfold lookupCache
      rw [if_pos rfl]
    have e2 := getCassetteSubclass_cached
      ⟨st.sessionId, (k.kid, ⟨st.fresh, some st.sessionId⟩) :: st.cache, st.fresh + 1⟩
      k ⟨st.fresh, some st.sessionId⟩ h hl2
    simp only [e2]
    exact ⟨trivial, trivial, hl2⟩

/-- Claim C2, witness at a concrete unbound base class. -/
theorem getCassetteSubclass_idempotent_witness :
    (⟨7, none⟩ : Klass).cassette = none ∧
    ((getCassetteSubclass (getCassetteSubclass ⟨0, [], 10⟩ ⟨7, none⟩).2 ⟨7, none⟩).1 =
        (getCassetteSubclass ⟨0, [], 10⟩ ⟨7, none⟩).1 ∧
     (getCassetteSubclass (getCassetteSubclass ⟨0, [], 10⟩ ⟨7, none⟩).2 ⟨7, none⟩).2 =
        (getCassetteSubclass ⟨0, [], 10⟩ ⟨7, none⟩).2 ∧
     lookupCache (getCassetteSubclass ⟨0, [], 10⟩ ⟨7, none⟩).2.cache 7 =
        some (getCassetteSubclass ⟨0, [], 10⟩ ⟨7, none⟩).1) :=
  ⟨rfl, getCassetteSubclass_idempotent ⟨0, [], 10⟩ ⟨7, none⟩ rfl⟩

/-- A replacement value handed to `_build_patcher`: either a dict whose
values are recursively resolved, a class exposing a `cassette` attribute
(so `hasattr(x, "cassette")` holds), or any other object (functions,
mocks), which exposes no `cassette` attribute. -/
inductive Repl where
  | dict : List (String × Repl) → Repl
  | klass : Klass → Repl
  | plain : Nat → Repl

mutual

/-- `CassettePatcherBuilder._recursively_apply_get_cassette_subclass`:
walk into dicts, rewrite every value exposing a `cassette` attribute via
`_get_cassette_subclass`, and leave everything else unchanged. -/
def recursivelyApplyGetCassetteSubclass : BuilderState → Repl → Repl × BuilderState
  | st, .dict entries =>
    let r := recursivelyApplyList st entries
    (.dict r.1, r.2)
  | st, .klass k =>
    let r := getCassetteSubclass st k
    (.klass r.1, r.2)
  | st, .plain n => (.plain n, st)

/-- Resolution of the entries of a dict replacement, in order, threading
the builder state. -/
def recursivelyApplyList : BuilderState → List (String × Repl) → List (String × Repl) × BuilderState
  | st, [] => ([], st)
  | st, e :: rest =>
    let r := recursivelyApplyGetCassetteSubclass st e.2
    let rs := recursivelyApplyList r.2 rest
    ((e.1, r.1) :: rs.1, rs.2)

end

/-- A patch handle as produced by `mock.patch.object(obj, attribute,
replacement)`: the target (named), the patched attribute, and the
resolved replacement value. -/
structure Patch where
  target : String
  attr : String
  replacement : Repl

/-- The environment the patcher runs in: which optional backend modules
imported successfully, and which target objects expose which attributes
(Python `hasattr`). -/
structure Env where
  hasAttr : String → String → Bool
  requestsLib : Bool
  boto3 : Bool
  urllib3 : Bool
  httplib2 : Bool
  boto : Bool
  tornadoSimple : Bool
  tornadoCurl : Bool
  aiohttp : Bool
  httpx : Bool

/-- `CassettePatcherBuilder._build_patcher`: if the target lacks the
attribute, produce nothing (and in particular do not resolve the
replacement); otherwise resolve the replacement and produce a patch
handle. -/
def buildPatcher (env : Env) (st : BuilderState) (obj attr : String) (repl : Repl) :
    Option Patch × BuilderState :=
  if env.hasAttr obj attr = false then (none, st)
  else
    let r := recursivelyApplyGetCassetteSubclass st repl
    (some ⟨obj, attr, r.1⟩, r.2)

/-- `CassettePatcherBuilder._build_patchers_from_mock_triples`: build a
patcher for each triple, keeping only the ones actually produced. -/
def buildPatchersFromMockTriples (env : Env) :
    BuilderState → List (String × String × Repl) → List Patch × BuilderState
  | st, [] => ([], st)
  | st, t :: rest =>
    let r := buildPatcher env st t.1 t.2.1 t.2.2
    match r.1 with
    | none => buildPatchersFromMockTriples env r.2 rest
    | some p =>
      let rs := buildPatchersFromMockTriples env r.2 rest
      (p :: rs.1, rs.2)

theorem buildPatcher_absent (env : Env) (st : BuilderState) (obj attr : String)
    (repl : Repl) (h : env.hasAttr obj attr = false) :
    buildPatcher env st obj attr repl = (none, st) := by
  unfold buildPatcher
  rw [if_pos h]

theorem buildPatcher_present (env : Env) (st : BuilderState) (obj attr : String)
    (repl : Repl) (h : env.hasAttr obj attr = true) :
    buildPatcher env st obj attr repl =
      (some ⟨obj, attr, (recursivelyApplyGetCassetteSubclass st repl).1⟩,
       (recursivelyApplyGetCassetteSubclass st repl).2) := by
  unfold buildPatcher
  rw [if_neg (by simp [h])]

/-- Claim C3: `_build_patcher` produces no handle (and no error) when the
target lacks the attribute, and a pair of custom triples of which exactly
one targets a present attribute yields exactly one patch handle. -/
theorem buildPatcher_silent_skip (env : Env) (st : BuilderState)
    (o1 a1 o2 a2 : String) (r1 r2 : Repl)
    (h1 : env.hasAttr o1 a1 = true) (h2 : env.hasAttr o2 a2 = false) :
    (∀ (st' : BuilderState) (r : Repl), buildPatcher env st' o2 a2 r = (none, st')) ∧
    (buildPatchersFromMockTriples env st [(o1, a1, r1), (o2, a2, r2)]).1.length = 1 := by
  constructor
  · intro st' r
    exact buildPatcher_absent env st' o2 a2 r h2
  · unfold buildPatchersFromMockTriples
    dsimp only
    rw [buildPatcher_present env st o1 a1 r1 h1]
    dsimp only
    unfold buildPatchersFromMockTriples
    dsimp only
    rw [buildPatcher_absent env (recursivelyApplyGetCassetteSubclass st r1).2 o2 a2 r2 h2]
    rfl

/-- A concrete environment for witnesses: only `modA.attrA` exists, and
no optional backend is importable. -/
def envW : Env where
  hasAttr := fun o a => o == "modA" && a == "attrA"
  requestsLib := false
  boto3 := false
  urllib3 := false
  httplib2 := false
  boto := false
  tornadoSimple := false
  tornadoCurl := false
  aiohttp := false
  httpx := false

/-- Claim C3, witness: a concrete environment where the first triple's
attribute is present and the second's is absent. -/
theorem buildPatcher_silent_skip_witness :
    (envW.hasAttr "modA" "attrA" = true) ∧ (envW.hasAttr "modB" "attrB" = false) ∧
    ((∀ (st' : BuilderState) (r : Repl),
        buildPatcher envW st' "modB" "attrB" r = (none, st')) ∧
     (buildPatchersFromMockTriples envW ⟨0, [], 10⟩
        [("modA", "attrA", .plain 0), ("modB", "attrB", .plain 1)]).1.length = 1) :=
  ⟨rfl, rfl,
   buildPatcher_silent_skip envW ⟨0, [], 10⟩ "modA" "attrA" "modB" "attrB"
     (.plain 0) (.plain 1) rfl rfl⟩

/-- A connection object: `cls` is the identity of its (dynamically
generated, session-bound) class, `cid` its own object identity.
`isinstance(c, K)` for a substitute class `K` is class-identity equality,
since the generated substitute classes have no further subclasses. -/
structure Conn where
  cls : Nat
  cid : Nat
deriving DecidableEq

/-- A urllib3-style connection pool: the class its creation path
produces (`ConnectionCls`, which under patching is the session's
substitute class), the queue of pooled connections, and a counter
supplying the identity of freshly created connections. -/
structure Pool where
  connectionCls : Nat
  queue : List Conn
  fresh : Nat
deriving DecidableEq

/-- Modelled from the spec: the pool's original acquire primitive
(urllib3's `_get_conn`, an external collaborator): pop the oldest pooled
connection, or, when the pool is empty, invoke the pool's own creation
path — which, the build sequence having already patched `_new_conn` and
`ConnectionCls`, always produces the substitute type. -/
def poolGetConn (p : Pool) : Conn × Pool :=
  match p.queue with
  | c :: rest => (c, ⟨p.connectionCls, rest, p.fresh⟩)
  | [] => (⟨p.connectionCls, p.fresh⟩, ⟨p.connectionCls, [], p.fresh + 1⟩)

/-- The `while not isinstance(connection, connection_class)` loop of
`CassettePatcherBuilder._patched_get_conn`, operating on the connection
just acquired: while the connection is of the wrong class, acquire
another one.  Arguments: the expected class, the connection in hand, the
remaining queue, the fresh-identity counter, and the number of calls to
the original acquire primitive made so far; returns the connection
finally handed out, the remaining queue, the counter, and the total
number of primitive calls. -/
def getConnLoop (cls : Nat) : Conn → List Conn → Nat → Nat → Conn × List Conn × Nat × Nat
  | c, queue, fresh, calls =>
    if c.cls = cls then (c, queue, fresh, calls)
    else
      match queue with
      | c2 :: rest => getConnLoop cls c2 rest fresh (calls + 1)
      | [] => (⟨cls, fresh⟩, [], fresh + 1, calls + 1)

/-- `CassettePatcherBuilder._patched_get_conn`'s wrapper
`patched_get_conn`: call the original acquire primitive once, then
re-acquire while the connection in hand is not an instance of the
expected connection class.  Returns the connection, the final pool and
the number of calls made to the original acquire primitive. -/
def patchedGetConn (p : Pool) : Conn × Pool × Nat :=
  let r := poolGetConn p
  let l := getConnLoop p.connectionCls r.1 r.2.queue r.2.fresh 1
  (l.1, ⟨p.connectionCls, l.2.1, l.2.2.1⟩, l.2.2.2)

theorem getConnLoop_spec (cls : Nat) :
    ∀ (queue : List Conn) (c : Conn) (fresh calls : Nat),
      (getConnLoop cls c queue fresh calls).1.cls = cls ∧
      (getConnLoop cls c queue fresh calls).2.2.2 ≤ calls + queue.length + 1 := by
  intro queue
  induction queue with
  | nil =>
    intro c fresh calls
    unfold getConnLoop
    by_cases hc : c.cls = cls
    · rw [if_pos hc]
      exact ⟨hc, by dsimp only; omega⟩
    · rw [if_neg hc]
      exact ⟨rfl, by dsimp only; omega⟩
  | cons c2 rest ih =>
    intro c fresh calls
    unfold getConnLoop
    by_cases hc : c.cls = cls
    · rw [if_pos hc]
      exact ⟨hc, by dsimp only; simp; omega⟩
    · rw [if_neg hc]
      obtain ⟨h1, h2⟩ := ih c2 fresh (calls + 1)
      refine ⟨h1, ?_⟩
      calc (getConnLoop cls c2 rest fresh (calls + 1)).2.2.2
          ≤ calls + 1 + rest.length + 1 := h2
        _ ≤ calls + (c2 :: rest).length + 1 := by simp; omega

/-- Claim C4: for a pool pre-populated with `K` connections none of
which is an instance of the expected connection class, and whose
creation primitive always yields an instance of that class, the wrapped
acquire operation returns a correctly-typed connection after at most
`K + 1` calls to the pool's original acquire primitive. -/
theorem patchedGetConn_terminates (p : Pool)
    (h : ∀ c ∈ p.queue, c.cls ≠ p.connectionCls) :
    (patchedGetConn p).1.cls = p.connectionCls ∧
    (patchedGetConn p).2.2 ≤ p.queue.length + 1 := by
  unfold patchedGetConn poolGetConn
  cases hq : p.queue with
  | nil =>
    dsimp only
    unfold getConnLoop
    rw [if_pos rfl]
    exact ⟨rfl, by simp⟩
  | cons c rest =>
    dsimp only
    obtain ⟨h1, h2⟩ := getConnLoop_spec p.connectionCls rest c p.fresh 1
    refine ⟨h1, ?_⟩
    calc (getConnLoop p.connectionCls c rest p.fresh 1).2.2.2
        ≤ 1 + rest.length + 1 := h2
      _ ≤ (c :: rest).length + 1 := by simp; omega

/-- Claim C4, witness: a pool holding two stale wrong-class connections. -/
theorem patchedGetConn_terminates_witness :
    (∀ c ∈ (⟨0, [⟨1, 20⟩, ⟨1, 21⟩], 50⟩ : Pool).queue, c.cls ≠ 0) ∧
    ((patchedGetConn ⟨0, [⟨1, 20⟩, ⟨1, 21⟩], 50⟩).1.cls = 0 ∧
     (patchedGetConn ⟨0, [⟨1, 20⟩, ⟨1, 21⟩], 50⟩).2.2 ≤ 2 + 1) :=
  ⟨by decide, patchedGetConn_terminates ⟨0, [⟨1, 20⟩, ⟨1, 21⟩], 50⟩ (by decide)⟩

/-- The state of a `ConnectionRemover`: the substitute connection class
it tracks and the `_connection_pool_to_connections` mapping from pool
identity to the set of tracked connections (a Python set, modelled as a
duplicate-free list). -/
structure Remover where
  connectionClass : Nat
  poolToConnections : List (Nat × List Conn)
deriving DecidableEq

/-- Python's `dict.setdefault(pool, set()).add(connection)`: add the
connection to the pool's entry, creating the entry if absent. -/
def setdefaultAdd : List (Nat × List Conn) → Nat → Conn → List (Nat × List Conn)
  | [], poolId, c => [(poolId, [c])]
  | (p0, s) :: rest, poolId, c =>
    if p0 = poolId then (p0, if c ∈ s then s else s ++ [c]) :: rest
    else (p0, s) :: setdefaultAdd rest poolId c

/-- `ConnectionRemover.add_connection_to_pool_entry`: record the
connection for its pool only when it is an instance of the tracked
connection class; otherwise do nothing at all. -/
def addConnectionToPoolEntry (r : Remover) (poolId : Nat) (c : Conn) : Remover :=
  if c.cls = r.connectionClass then
    ⟨r.connectionClass, setdefaultAdd r.poolToConnections poolId c⟩
  else r

/-- The drain loop of `ConnectionRemover.__exit__` for one pool:
`while pool.pool and not pool.pool.empty() and connections:` pop a
connection; a tracked-class instance is discarded and removed from the
tracked set (Python `set.remove` raising `KeyError`, here `none`, if it
is not in the set), anything else is set aside for re-queuing.  Returns
the remaining queue, the remaining tracked set and the set-aside list. -/
def drainLoop (cls : Nat) : List Conn → List Conn → List Conn →
    Option (List Conn × List Conn × List Conn)
  | [], tracked, readd => some ([], tracked, readd)
  | c :: rest, tracked, readd =>
    if tracked = [] then some (c :: rest, tracked, readd)
    else if c.cls = cls then
      if c ∈ tracked then drainLoop cls rest (tracked.erase c) readd
      else none
    else drainLoop cls rest tracked (readd ++ [c])

/-- The per-pool body of `ConnectionRemover.__exit__` (its `for` loop
runs this on every pool that has a tracked-connection entry): drain and
sift the pool's queue, then `_put_conn` every set-aside connection back,
at the tail of the queue.  A pool whose `pool` attribute is `None`
(modelled by `none`) is skipped by the `while` condition.  `none` as a
result models an uncaught `KeyError`. -/
def connectionRemoverExitPool (cls : Nat) :
    Option (List Conn) → List Conn → Option (Option (List Conn) × List Conn)
  | none, tracked => some (none, tracked)
  | some q, tracked =>
    match drainLoop cls q tracked [] with
    | none => none
    | some (rem, t2, readd) => some (some (rem ++ readd), t2)

theorem drainLoop_ok (cls : Nat) :
    ∀ (q tracked readd rem t2 readd2 : List Conn),
      drainLoop cls q tracked readd = some (rem, t2, readd2) →
      ∃ proc, q = proc ++ rem ∧
        readd2 = readd ++ proc.filter (fun c => !(c.cls == cls)) ∧
        (∀ c ∈ t2, c ∈ tracked) := by
  intro q
  induction q with
  | nil =>
    intro tracked readd rem t2 readd2 h
    unfold drainLoop at h
    simp only [Option.some.injEq, Prod.mk.injEq] at h
    obtain ⟨h1, h2, h3⟩ := h
    exact ⟨[], by simp [← h1], by simp [← h3], fun c hc => h2 ▸ hc⟩
  | cons c rest ih =>
    intro tracked readd rem t2 readd2 h
    unfold drainLoop at h
    by_cases ht : tracked = []
    · rw [if_pos ht] at h
      simp only [Option.some.injEq, Prod.mk.injEq] at h
      obtain ⟨h1, h2, h3⟩ := h
      exact ⟨[], by simp [← h1], by simp [← h3], fun x hx => h2 ▸ hx⟩
    · rw [if_neg ht] at h
      by_cases hc : c.cls = cls
      · rw [if_pos hc] at h
        by_cases hm : c ∈ tracked
        · rw [if_pos hm] at h
          obtain ⟨proc, hq, hr, hsub⟩ := ih (tracked.erase c) readd rem t2 readd2 h
          refine ⟨c :: proc, by simp [hq], ?_, ?_⟩
          · rw [hr]
            have : (c :: proc).filter (fun x => !(x.cls == cls)) =
                proc.filter (fun x => !(x.cls == cls)) := by
              simp [List.filter_cons, hc]
            rw [this]
          · intro x hx
            exact List.erase_subset _ _ (hsub x hx)
        · rw [if_neg hm] at h
          exact absurd h (by simp)
      · rw [if_neg hc] at h
        obtain ⟨proc, hq, hr, hsub⟩ := ih tracked (readd ++ [c]) rem t2 readd2 h
        refine ⟨c :: proc, by simp [hq], ?_, hsub⟩
        rw [hr]
        have : (c :: proc).filter (fun x => !(x.cls == cls)) =
            c :: proc.filter (fun x => !(x.cls == cls)) := by
          simp [List.filter_cons, hc]
        rw [this]
        simp

/-- Counting a fixed connection is unaffected by filtering out the
instances of a class it does not belong to. -/
theorem count_filter_not_instance (cls : Nat) (c : Conn) (hc : c.cls ≠ cls) :
    ∀ l : List Conn, (l.filter (fun x => !(x.cls == cls))).count c = l.count c := by
  intro l
  induction l with
  | nil => rfl
  | cons x rest ih =>
    by_cases hx : x.cls = cls
    · have hne : x ≠ c := fun he => hc (he ▸ hx)
      rw [List.filter_cons_of_neg (by simp [hx])]
      rw [List.count_cons_of_ne (Ne.symm hne) rest]
      exact ih
    · rw [List.filter_cons_of_pos (by simp [hx])]
      by_cases hxc : x = c
      · subst hxc
        rw [List.count_cons_self, List.count_cons_self]
        omega
      · rw [List.count_cons_of_ne (Ne.symm hxc), List.count_cons_of_ne (Ne.symm hxc)]
        exact ih

theorem exitPool_count (cls : Nat) (q tracked finalQ t2 : List Conn)
    (h : connectionRemoverExitPool cls (some q) tracked = some (some finalQ, t2)) :
    ∀ c : Conn, c.cls ≠ cls → finalQ.count c = q.count c := by
  intro c hc
  unfold connectionRemoverExitPool at h
  dsimp only at h
  cases hd : drainLoop cls q tracked [] with
  | none => rw [hd] at h; exact absurd h (by simp)
  | some out =>
    rw [hd] at h
    obtain ⟨rem, t2', readd⟩ := out
    injection h with h'
    have hfq : some (rem ++ readd) = some finalQ := congrArg Prod.fst h'
    have hfq2 : rem ++ readd = finalQ := Option.some.inj hfq
    obtain ⟨proc, hq, hr, -⟩ := drainLoop_ok cls q tracked [] rem t2' readd hd
    rw [← hfq2, hq, hr]
    simp only [List.count_append, List.count_nil, count_filter_not_instance cls c hc]
    omega

/-- Claim C5, counterexample: with pool queue `[a, x, b]` where only `x`
(class `0`) is tracked, the drain stops once the tracked set empties, so
`b` stays in the queue and `a` is re-queued *behind* it: the preserved
entries `a`, `b` come out in the opposite relative order. -/
theorem connectionRemoverExit_order_counterexample :
    connectionRemoverExitPool 0 (some [⟨1, 0⟩, ⟨0, 1⟩, ⟨1, 2⟩]) [⟨0, 1⟩] =
      some (some [⟨1, 2⟩, ⟨1, 0⟩], []) ∧
    List.indexOf (⟨1, 0⟩ : Conn) [⟨1, 0⟩, ⟨0, 1⟩, ⟨1, 2⟩] <
      List.indexOf (⟨1, 2⟩ : Conn) [⟨1, 0⟩, ⟨0, 1⟩, ⟨1, 2⟩] ∧
    List.indexOf (⟨1, 2⟩ : Conn) [⟨1, 2⟩, ⟨1, 0⟩] <
      List.indexOf (⟨1, 0⟩ : Conn) [⟨1, 2⟩, ⟨1, 0⟩] := by
  decide

/-- Claim C5 (amended): on a drain that raises nothing, teardown never
removes from the pool an entry that is not an instance of the tracked
class (their multiplicities are preserved), and the final queue is the
undrained remainder of the original queue followed by the set-aside
non-instances in their original relative order; when the drain stops
early, the remainder precedes the re-queued entries, so the overall
relative order of preserved entries can change. -/
theorem connectionRemoverExit_drain_safety (cls : Nat) (q tracked finalQ t2 : List Conn)
    (h : connectionRemoverExitPool cls (some q) tracked = some (some finalQ, t2)) :
    (∀ c : Conn, c.cls ≠ cls → finalQ.count c = q.count c) ∧
    (∃ proc rem, q = proc ++ rem ∧
       finalQ = rem ++ proc.filter (fun c => !(c.cls == cls))) := by
  refine ⟨exitPool_count cls q tracked finalQ t2 h, ?_⟩
  unfold connectionRemoverExitPool at h
  dsimp only at h
  cases hd : drainLoop cls q tracked [] with
  | none => rw [hd] at h; exact absurd h (by simp)
  | some out =>
    rw [hd] at h
    obtain ⟨rem, t2', readd⟩ := out
    simp only [Option.some.injEq, Prod.mk.injEq] at h
    obtain ⟨hfq, -⟩ := h
    obtain ⟨proc, hq, hr, -⟩ := drainLoop_ok cls q tracked [] rem t2' readd hd
    refine ⟨proc, rem, hq, ?_⟩
    rw [← hfq, hr]
    simp

/-- Claim C5, witness: a successful drain on a pool holding one
untracked-class connection. -/
theorem connectionRemoverExit_drain_safety_witness :
    connectionRemoverExitPool 0 (some [⟨1, 9⟩]) [] = some (some [⟨1, 9⟩], []) ∧
    ((∀ c : Conn, c.cls ≠ 0 →
        List.count c [(⟨1, 9⟩ : Conn)] = List.count c [(⟨1, 9⟩ : Conn)]) ∧
     (∃ proc rem, [(⟨1, 9⟩ : Conn)] = proc ++ rem ∧
        [(⟨1, 9⟩ : Conn)] = rem ++ proc.filter (fun c => !(c.cls == 0)))) :=
  ⟨by decide, connectionRemoverExit_drain_safety 0 [⟨1, 9⟩] [] [⟨1, 9⟩] [] (by decide)⟩

theorem drainLoop_isSome (cls : Nat) :
    ∀ (q tracked readd : List Conn),
      (tracked = [] ∨ ((q.filter (fun c => c.cls == cls)).Nodup ∧
          ∀ c ∈ q, c.cls = cls → c ∈ tracked)) →
      ∃ out, drainLoop cls q tracked readd = some out := by
  intro q
  induction q with
  | nil =>
    intro tracked readd _
    exact ⟨([], tracked, readd), rfl⟩
  | cons c rest ih =>
    intro tracked readd h
    unfold drainLoop
    by_cases ht : tracked = []
    · rw [if_pos ht]
      exact ⟨(c :: rest, tracked, readd), rfl⟩
    · rw [if_neg ht]
      obtain ⟨hnd, hsub⟩ := h.resolve_left ht
      by_cases hc : c.cls = cls
      · rw [if_pos hc]
        have hm : c ∈ tracked := hsub c (List.mem_cons_self _ _) hc
        rw [if_pos hm]
        apply ih
        by_cases he : tracked.erase c = []
        · exact Or.inl he
        · right
          have hfc : List.filter (fun x => x.cls == cls) (c :: rest) =
              c :: List.filter (fun x => x.cls == cls) rest := by
            simp [List.filter_cons, hc]
          rw [hfc] at hnd
          have hnotin : c ∉ List.filter (fun x => x.cls == cls) rest :=
            (List.nodup_cons.mp hnd).1
          refine ⟨(List.nodup_cons.mp hnd).2, ?_⟩
          intro x hx hxcls
          have hxtr : x ∈ tracked := hsub x (List.mem_cons_of_mem _ hx) hxcls
          have hne : x ≠ c := by
            intro he2
            exact hnotin (he2 ▸ (List.mem_filter.mpr ⟨hx, by simp [hxcls]⟩))
          exact (List.mem_erase_of_ne hne).mpr hxtr
      · rw [if_neg hc]
        apply ih
        right
        have hfc : List.filter (fun x => x.cls == cls) (c :: rest) =
            List.filter (fun x => x.cls == cls) rest := by
          simp [List.filter_cons, hc]
        rw [hfc] at hnd
        exact ⟨hnd, fun x hx hxcls => hsub x (List.mem_cons_of_mem _ hx) hxcls⟩

/-- Claim C6, counterexample: a pool queue holding an instance of the
tracked class that is not in the tracked set makes `__exit__` raise
(`set.remove` raises `KeyError`), so the drain does not tolerate every
pool state without error. -/
theorem connectionRemoverExit_keyerror_counterexample :
    connectionRemoverExitPool 0 (some [⟨0, 7⟩]) [⟨0, 5⟩] = none := by
  decide

/-- Claim C6 (amended): provided every tracked-class instance in the
pool's queue is in the tracked set and the queue holds no duplicate
tracked-class instance — in particular for every empty, already-drained
(empty tracked set) or closed (`pool.pool is None`) pool — the drain
raises no error, terminating when the queue or the tracked set is
exhausted, and connections that are not instances of the session's
substitute class (those predating the session) are left in the pool. -/
theorem connectionRemoverExit_no_error (cls : Nat) (q tracked : List Conn)
    (h : tracked = [] ∨ ((q.filter (fun c => c.cls == cls)).Nodup ∧
        ∀ c ∈ q, c.cls = cls → c ∈ tracked)) :
    (∃ finalQ t2, connectionRemoverExitPool cls (some q) tracked = some (some finalQ, t2) ∧
        ∀ c : Conn, c.cls ≠ cls → finalQ.count c = q.count c) ∧
    connectionRemoverExitPool cls none tracked = some (none, tracked) := by
  refine ⟨?_, rfl⟩
  obtain ⟨out, hout⟩ := drainLoop_isSome cls q tracked [] h
  obtain ⟨rem, t2, readd⟩ := out
  have hex : connectionRemoverExitPool cls (some q) tracked = some (some (rem ++ readd), t2) := by
    unfold connectionRemoverExitPool
    dsimp only
    rw [hout]
  exact ⟨rem ++ readd, t2, hex, exitPool_count cls q tracked (rem ++ readd) t2 hex⟩

/-- Claim C6, witness: a pool holding exactly the one tracked connection. -/
theorem connectionRemoverExit_no_error_witness :
    ([(⟨0, 3⟩ : Conn)] = [] ∨
      (((([(⟨0, 3⟩ : Conn)]).filter (fun c => c.cls == 0)).Nodup) ∧
        ∀ c ∈ [(⟨0, 3⟩ : Conn)], c.cls = 0 → c ∈ [(⟨0, 3⟩ : Conn)])) ∧
    ((∃ finalQ t2,
        connectionRemoverExitPool 0 (some [⟨0, 3⟩]) [⟨0, 3⟩] = some (some finalQ, t2) ∧
        ∀ c : Conn, c.cls ≠ 0 → finalQ.count c = List.count c [(⟨0, 3⟩ : Conn)]) ∧
     connectionRemoverExitPool 0 none [⟨0, 3⟩] = some (none, [⟨0, 3⟩])) :=
  ⟨Or.inr (by decide), connectionRemoverExit_no_error 0 [⟨0, 3⟩] [⟨0, 3⟩] (Or.inr (by decide))⟩

/-- The invariant of C10: every connection in any tracked set is an
instance of the remover's connection class. -/
def TrackerInv (r : Remover) : Prop :=
  ∀ e ∈ r.poolToConnections, ∀ c ∈ e.2, c.cls = r.connectionClass

instance (r : Remover) : Decidable (TrackerInv r) := by
  unfold TrackerInv; infer_instance

theorem setdefaultAdd_mem :
    ∀ (m : List (Nat × List Conn)) (poolId : Nat) (c : Conn),
      ∀ e ∈ setdefaultAdd m poolId c, ∀ x ∈ e.2, (∃ e0 ∈ m, x ∈ e0.2) ∨ x = c := by
  intro m
  induction m with
  | nil =>
    intro poolId c e he x hx
    unfold setdefaultAdd at he
    rcases List.mem_singleton.mp he with rfl
    rcases List.mem_singleton.mp hx with rfl
    exact Or.inr rfl
  | cons hd tl ih =>
    intro poolId c e he x hx
    obtain ⟨p0, s⟩ := hd
    unfold setdefaultAdd at he
    by_cases hp : p0 = poolId
    · rw [if_pos hp] at he
      rcases List.mem_cons.mp he with rfl | he2
      · by_cases hcs : c ∈ s
        · rw [if_pos hcs] at hx
          exact Or.inl ⟨(p0, s), List.mem_cons_self _ _, hx⟩
        · rw [if_neg hcs] at hx
          rcases List.mem_append.mp hx with hx2 | hx2
          · exact Or.inl ⟨(p0, s), List.mem_cons_self _ _, hx2⟩
          · exact Or.inr (List.mem_singleton.mp hx2)
      · exact Or.inl ⟨e, List.mem_cons_of_mem _ he2, hx⟩
    · rw [if_neg hp] at he
      rcases List.mem_cons.mp he with rfl | he2
      · exact Or.inl ⟨(p0, s), List.mem_cons_self _ _, hx⟩
      · rcases ih poolId c e he2 x hx with ⟨e0, he0, hxe0⟩ | hxc
        · exact Or.inl ⟨e0, List.mem_cons_of_mem _ he0, hxe0⟩
        · exact Or.inr hxc

/-- Claim C10: tracked sets only ever hold instances of the remover's
connection class: adding a non-instance leaves the tracker unchanged,
adding anything preserves the invariant, and the teardown drain only
ever shrinks a tracked set. -/
theorem trackerInv_preserved (r : Remover) (poolId : Nat) (c : Conn)
    (hinv : TrackerInv r) :
    (c.cls ≠ r.connectionClass → addConnectionToPoolEntry r poolId c = r) ∧
    TrackerInv (addConnectionToPoolEntry r poolId c) ∧
    (∀ (q tracked : List Conn) (res : Option (List Conn) × List Conn),
       connectionRemoverExitPool r.connectionClass (some q) tracked = some res →
       ∀ x ∈ res.2, x ∈ tracked) := by
  refine ⟨?_, ?_, ?_⟩
  · intro hne
    unfold addConnectionToPoolEntry
    rw [if_neg hne]
  · unfold addConnectionToPoolEntry
    by_cases hc : c.cls = r.connectionClass
    · rw [if_pos hc]
      intro e he x hx
      rcases setdefaultAdd_mem r.poolToConnections poolId c e he x hx with ⟨e0, he0, hxe0⟩ | rfl
      · exact hinv e0 he0 x hxe0
      · exact hc
    · rw [if_neg hc]
      exact hinv
  · intro q tracked res hres x hx
    unfold connectionRemoverExitPool at hres
    dsimp only at hres
    cases hd : drainLoop r.connectionClass q tracked [] with
    | none => rw [hd] at hres; exact absurd hres (by simp)
    | some out =>
      rw [hd] at hres
      obtain ⟨rem, t2, readd⟩ := out
      dsimp only at hres
      obtain ⟨-, -, -, hsub⟩ :=
        drainLoop_ok r.connectionClass q tracked [] rem t2 readd hd
      have h2 : (some (rem ++ readd), t2) = res := Option.some.inj hres
      rw [← h2] at hx
      exact hsub x hx

/-- Claim C10, witness: a tracker holding one correctly-classed
connection for pool `1`. -/
theorem trackerInv_preserved_witness :
    TrackerInv ⟨0, [(1, [⟨0, 2⟩])]⟩ ∧
    ((((⟨0, 4⟩ : Conn).cls ≠ (0 : Nat) →
        addConnectionToPoolEntry ⟨0, [(1, [⟨0, 2⟩])]⟩ 1 ⟨0, 4⟩ = ⟨0, [(1, [⟨0, 2⟩])]⟩) ∧
      TrackerInv (addConnectionToPoolEntry ⟨0, [(1, [⟨0, 2⟩])]⟩ 1 ⟨0, 4⟩) ∧
      (∀ (q tracked : List Conn) (res : Option (List Conn) × List Conn),
        connectionRemoverExitPool 0 (some q) tracked = some res →
        ∀ x ∈ res.2, x ∈ tracked))) :=
  ⟨by decide, trackerInv_preserved ⟨0, [(1, [⟨0, 2⟩])]⟩ 1 ⟨0, 4⟩ (by decide)⟩

/-- The process-wide store of patched seams: the value currently held at
each (target, attribute) seam, values being identities of class/function
objects. -/
def Store := String → String → Nat

/-- Overwrite one seam of the store. -/
def setStore (s : Store) (t0 a0 : String) (v : Nat) : Store :=
  fun t a => if t = t0 ∧ a = a0 then v else s t a

/-- Modelled from the spec: a `mock.patch.object(target, attribute,
replacement)` patcher (the PatchHandle of §4.2, implemented by the
external `unittest.mock` collaborator): entering captures the current
value and installs the replacement; exiting restores the captured
value. -/
structure MockPatchObject where
  target : String
  attr : String
  replacement : Nat

/-- An entered patch handle: the seam it covers and the value it
captured at entry, to be restored at exit. -/
structure ActivePatch where
  target : String
  attr : String
  saved : Nat

/-- Entering one patch handle: capture the current seam value, install
the replacement. -/
def enterPatchObject (s : Store) (p : MockPatchObject) : Store × ActivePatch :=
  (setStore s p.target p.attr p.replacement, ⟨p.target, p.attr, s p.target p.attr⟩)

/-- Exiting one entered handle: restore the captured value,
unconditionally (last-writer-wins, no compare against the current
value). -/
def exitPatchObject (s : Store) (a : ActivePatch) : Store :=
  setStore s a.target a.attr a.saved

/-- Entering a list of patch handles in order, collecting the stack of
active handles (first entered first). -/
def enterAll : Store → List MockPatchObject → Store × List ActivePatch
  | s, [] => (s, [])
  | s, p :: ps =>
    let r := enterPatchObject s p
    let rs := enterAll r.1 ps
    (rs.1, r.2 :: rs.2)

/-- Exiting a stack of active handles in strict LIFO order: the handles
entered later (deeper in the list) are exited first. -/
def exitAllLIFO : Store → List ActivePatch → Store
  | s, [] => s
  | s, a :: rest => exitPatchObject (exitAllLIFO s rest) a

theorem setStore_congr (s1 s2 : Store) (h : ∀ t a, s1 t a = s2 t a)
    (t0 a0 : String) (v : Nat) :
    ∀ t a, setStore s1 t0 a0 v t a = setStore s2 t0 a0 v t a := by
  intro t a
  unfold setStore
  by_cases hc : t = t0 ∧ a = a0
  · rw [if_pos hc, if_pos hc]
  · rw [if_neg hc, if_neg hc]
    exact h t a

theorem setStore_restore (s : Store) (t0 a0 : String) (v : Nat) :
    ∀ t a, setStore (setStore s t0 a0 v) t0 a0 (s t0 a0) t a = s t a := by
  intro t a
  unfold setStore
  by_cases hc : t = t0 ∧ a = a0
  · rw [if_pos hc, hc.1, hc.2]
  · rw [if_neg hc, if_neg hc]

theorem mockStack_restore :
    ∀ (ps : List MockPatchObject) (s : Store) (t a : String),
      exitAllLIFO (enterAll s ps).1 (enterAll s ps).2 t a = s t a := by
  intro ps
  induction ps with
  | nil => intro s t a; rfl
  | cons p rest ih =>
    intro s t a
    unfold enterAll
    dsimp only [enterPatchObject]
    unfold exitAllLIFO exitPatchObject
    dsimp only
    calc setStore
          (exitAllLIFO (enterAll (setStore s p.target p.attr p.replacement) rest).1
            (enterAll (setStore s p.target p.attr p.replacement) rest).2)
          p.target p.attr (s p.target p.attr) t a
        = setStore (setStore s p.target p.attr p.replacement)
            p.target p.attr (s p.target p.attr) t a :=
          setStore_congr _ _ (ih (setStore s p.target p.attr p.replacement))
            p.target p.attr _ t a
      _ = s t a := setStore_restore s p.target p.attr p.replacement t a

/-- Claim C8 (PatchHandle enter/exit semantics modelled from the spec,
`unittest.mock` being an external collaborator): entering any list of
patch handles and exiting them in strict LIFO order leaves every seam
with the value it had before the first entry; and for two nested
sessions patching the same seam, after the inner exit the seam holds the
outer session's substitute, and after the outer exit the pristine
original. -/
theorem lifo_sessions_restore :
    (∀ (ps : List MockPatchObject) (s : Store) (t a : String),
       exitAllLIFO (enterAll s ps).1 (enterAll s ps).2 t a = s t a) ∧
    (∀ (s0 : Store) (t a : String) (va vb : Nat),
       exitPatchObject (enterPatchObject (enterPatchObject s0 ⟨t, a, va⟩).1 ⟨t, a, vb⟩).1
           (enterPatchObject (enterPatchObject s0 ⟨t, a, va⟩).1 ⟨t, a, vb⟩).2 t a = va ∧
       exitPatchObject
           (exitPatchObject (enterPatchObject (enterPatchObject s0 ⟨t, a, va⟩).1 ⟨t, a, vb⟩).1
             (enterPatchObject (enterPatchObject s0 ⟨t, a, va⟩).1 ⟨t, a, vb⟩).2)
           (enterPatchObject s0 ⟨t, a, va⟩).2 t a = s0 t a) := by
  refine ⟨mockStack_restore, ?_⟩
  intro s0 t a va vb
  constructor
  · simp [enterPatchObject, exitPatchObject, setStore]
  · simp [enterPatchObject, exitPatchObject, setStore]

/-- Modelled from the spec: the instrumented connection types of the
`vcr.stubs` modules (repository code outside `src/`), each a distinct
class exposing a bindable owning-session slot (`cassette`), unbound
(`None`) at load time.  Stub classes of the httplib backend. -/
def VCRHTTPConnection : Klass := ⟨100, none⟩

/-- Modelled from the spec: the httplib HTTPS stub class. -/
def VCRHTTPSConnection : Klass := ⟨101, none⟩

/-- A urllib3-flavoured stubs module: its HTTP and HTTPS instrumented
connection classes, as used by `_urllib3_patchers`. -/
structure StubsModule where
  vcrRequestsHTTPConnection : Klass
  vcrRequestsHTTPSConnection : Klass

/-- Modelled from the spec: `vcr.stubs.requests_stubs`. -/
def requests_stubs : StubsModule := ⟨⟨102, none⟩, ⟨103, none⟩⟩

/-- Modelled from the spec: `vcr.stubs.urllib3_stubs`. -/
def urllib3_stubs : StubsModule := ⟨⟨104, none⟩, ⟨105, none⟩⟩

/-- Modelled from the spec: `vcr.stubs.boto3_stubs`. -/
def boto3_stubs : StubsModule := ⟨⟨106, none⟩, ⟨107, none⟩⟩

/-- Modelled from the spec: `vcr.stubs.httplib2_stubs` HTTP class. -/
def VCRHTTPConnectionWithTimeout : Klass := ⟨108, none⟩

/-- Modelled from the spec: `vcr.stubs.httplib2_stubs` HTTPS class. -/
def VCRHTTPSConnectionWithTimeout : Klass := ⟨109, none⟩

/-- Modelled from the spec: `vcr.stubs.boto_stubs` class. -/
def VCRCertValidatingHTTPSConnection : Klass := ⟨110, none⟩

/-- One element of the sequence `CassettePatcherBuilder.build` yields:
either a patch handle or a `ConnectionRemover` guard (identified by the
substitute connection class it tracks). -/
inductive Item where
  | patch : Patch → Item
  | guard : Klass → Item

/-- The mock triples of `CassettePatcherBuilder._httplib`. -/
def httplibTriples : List (String × String × Repl) :=
  [("httplib", "HTTPConnection", .klass VCRHTTPConnection),
   ("httplib", "HTTPSConnection", .klass VCRHTTPSConnection)]

/-- `CassettePatcherBuilder._urllib3_patchers(cpool, conn, stubs)`:
create the two connection removers (resolving the stub classes through
the substitute cache), build patchers for the connection-class seams,
`is_connection_dropped`, the pools' `ConnectionCls`, `_get_conn` and
`_new_conn` wrappers (function-valued replacements, which expose no
`cassette` slot), and chain the removers after the patchers. -/
def urllib3Patchers (env : Env) (st : BuilderState) (cpoolName connName : String)
    (stubs : StubsModule) : List Item × BuilderState :=
  let r1 := getCassetteSubclass st stubs.vcrRequestsHTTPConnection
  let r2 := getCassetteSubclass r1.2 stubs.vcrRequestsHTTPSConnection
  let mockTriples : List (String × String × Repl) :=
    [(connName, "VerifiedHTTPSConnection", .klass stubs.vcrRequestsHTTPSConnection),
     (connName, "HTTPConnection", .klass stubs.vcrRequestsHTTPConnection),
     (connName, "HTTPSConnection", .klass stubs.vcrRequestsHTTPSConnection),
     (cpoolName, "is_connection_dropped", .plain 0),
     (cpoolName ++ ".HTTPConnectionPool", "ConnectionCls",
       .klass stubs.vcrRequestsHTTPConnection),
     (cpoolName ++ ".HTTPSConnectionPool", "ConnectionCls",
       .klass stubs.vcrRequestsHTTPSConnection),
     (cpoolName ++ ".HTTPConnectionPool", "_get_conn", .plain 1),
     (cpoolName ++ ".HTTPSConnectionPool", "_get_conn", .plain 2),
     (cpoolName ++ ".HTTPConnectionPool", "_new_conn", .plain 3),
     (cpoolName ++ ".HTTPSConnectionPool", "_new_conn", .plain 4)]
  let r3 := buildPatchersFromMockTriples env r2.2 mockTriples
  (r3.1.map Item.patch ++ [Item.guard r1.1, Item.guard r2.1], r3.2)

/-- `CassettePatcherBuilder._requests`: nothing if the requests stubs
cannot be imported, else the urllib3 patchers built on the requests
stubs module. -/
def requestsAdapter (env : Env) (st : BuilderState) : List Item × BuilderState :=
  if env.requestsLib then
    urllib3Patchers env st "urllib3.connectionpool" "urllib3.connection" requests_stubs
  else ([], st)

/-- `CassettePatcherBuilder._urllib3`. -/
def urllib3Adapter (env : Env) (st : BuilderState) : List Item × BuilderState :=
  if env.urllib3 then
    urllib3Patchers env st "urllib3.connectionpool" "urllib3.connection" urllib3_stubs
  else ([], st)

/-- The mock triples of `CassettePatcherBuilder._boto3`. -/
def boto3Triples (env : Env) : List (String × String × Repl) :=
  if env.boto3 then
    [("botocore.awsrequest.AWSHTTPConnectionPool", "ConnectionCls",
       .klass boto3_stubs.vcrRequestsHTTPConnection),
     ("botocore.awsrequest.AWSHTTPSConnectionPool", "ConnectionCls",
       .klass boto3_stubs.vcrRequestsHTTPSConnection)]
  else []

/-- The mock triples of `CassettePatcherBuilder._httplib2`, the third
being the scheme-to-connection dict replacement. -/
def httplib2Triples (env : Env) : List (String × String × Repl) :=
  if env.httplib2 then
    [("httplib2", "HTTPConnectionWithTimeout", .klass VCRHTTPConnectionWithTimeout),
     ("httplib2", "HTTPSConnectionWithTimeout", .klass VCRHTTPSConnectionWithTimeout),
     ("httplib2", "SCHEME_TO_CONNECTION", .dict
        [("http", .klass VCRHTTPConnectionWithTimeout),
         ("https", .klass VCRHTTPSConnectionWithTimeout)])]
  else []

/-- The mock triples of `CassettePatcherBuilder._boto`. -/
def botoTriples (env : Env) : List (String × String × Repl) :=
  if env.boto then
    [("boto.https_connection", "CertValidatingHTTPSConnection",
       .klass VCRCertValidatingHTTPSConnection)]
  else []

/-- The mock triples of `CassettePatcherBuilder._tornado`: the two
clients are probed independently; the replacements are `vcr_fetch_impl`
closures (functions, no `cassette` slot). -/
def tornadoTriples (env : Env) : List (String × String × Repl) :=
  (if env.tornadoSimple then
    [("tornado.simple_httpclient.SimpleAsyncHTTPClient", "fetch_impl", .plain 5)]
   else [])
  ++ (if env.tornadoCurl then
    [("tornado.curl_httpclient.CurlAsyncHTTPClient", "fetch_impl", .plain 6)]
   else [])

/-- The mock triples of `CassettePatcherBuilder._aiohttp`. -/
def aiohttpTriples (env : Env) : List (String × String × Repl) :=
  if env.aiohttp then
    [("aiohttp.client.ClientSession", "_request", .plain 7)]
  else []

/-- The mock triples of `CassettePatcherBuilder._httpx` (async client
first, as in the source). -/
def httpxTriples (env : Env) : List (String × String × Repl) :=
  if env.httpx then
    [("httpx.AsyncClient", "send", .plain 8),
     ("httpx.Client", "send", .plain 9)]
  else []

/-- `CassettePatcherBuilder.build`: the chain of the nine built-in
adapters in the source's order, followed by the patchers built from the
cassette's custom triples. -/
def build (env : Env) (st : BuilderState) (custom : List (String × String × Repl)) :
    List Item × BuilderState :=
  let r1 := buildPatchersFromMockTriples env st httplibTriples
  let r2 := requestsAdapter env r1.2
  let r3 := buildPatchersFromMockTriples env r2.2 (boto3Triples env)
  let r4 := urllib3Adapter env r3.2
  let r5 := buildPatchersFromMockTriples env r4.2 (httplib2Triples env)
  let r6 := buildPatchersFromMockTriples env r5.2 (botoTriples env)
  let r7 := buildPatchersFromMockTriples env r6.2 (tornadoTriples env)
  let r8 := buildPatchersFromMockTriples env r7.2 (aiohttpTriples env)
  let r9 := buildPatchersFromMockTriples env r8.2 (httpxTriples env)
  let rc := buildPatchersFromMockTriples env r9.2 custom
  (r1.1.map Item.patch ++ r2.1 ++ r3.1.map Item.patch ++ r4.1 ++
   r5.1.map Item.patch ++ r6.1.map Item.patch ++ r7.1.map Item.patch ++
   r8.1.map Item.patch ++ r9.1.map Item.patch ++ rc.1.map Item.patch, rc.2)

theorem buildTriples_proj (env : Env) :
    ∀ (ts : List (String × String × Repl)) (st : BuilderState),
      (buildPatchersFromMockTriples env st ts).1.map (fun p => (p.target, p.attr)) =
        (ts.filter (fun t => env.hasAttr t.1 t.2.1)).map (fun t => (t.1, t.2.1)) := by
  intro ts
  induction ts with
  | nil => intro st; rfl
  | cons t rest ih =>
    intro st
    unfold buildPatchersFromMockTriples
    dsimp only
    by_cases h : env.hasAttr t.1 t.2.1 = true
    · rw [buildPatcher_present env st t.1 t.2.1 t.2.2 h]
      dsimp only
      rw [List.filter_cons_of_pos (by simpa using h)]
      rw [List.map_cons, List.map_cons]
      rw [ih]
    · have h2 : env.hasAttr t.1 t.2.1 = false := by
        cases hv : env.hasAttr t.1 t.2.1
        · rfl
        · exact absurd hv h
      rw [buildPatcher_absent env st t.1 t.2.1 t.2.2 h2]
      dsimp only
      rw [List.filter_cons_of_neg (by simpa using h2)]
      exact ih st

/-- Claim C7: `build` emits the built-in adapters' patchers first, in
one fixed order, and the patchers built from the session's custom
triples after all of them; those custom patchers target exactly the
present-attribute triples, in the caller-supplied order. -/
theorem build_custom_last (env : Env) (st : BuilderState)
    (custom : List (String × String × Repl)) :
    (build env st custom).1 =
      (build env st []).1 ++
        (buildPatchersFromMockTriples env (build env st []).2 custom).1.map Item.patch ∧
    (buildPatchersFromMockTriples env (build env st []).2 custom).1.map
        (fun p => (p.target, p.attr)) =
      (custom.filter (fun t => env.hasAttr t.1 t.2.1)).map (fun t => (t.1, t.2.1)) := by
  constructor
  · unfold build
    dsimp only
    simp only [buildPatchersFromMockTriples, List.map_nil, List.append_nil,
      List.append_assoc]
  · exact buildTriples_proj env custom (build env st []).2

/-- The original, pre-session values of the seams, captured once at
process load time (the module-level `_HTTPConnection`, `_HTTPSConnection`,
`_VerifiedHTTPSConnection`, ... globals), as distinct object
identities; seams with no captured global map to `1000`. -/
def originalValue (t a : String) : Nat :=
  if t = "httplib" ∧ a = "HTTPConnection" then 0
  else if t = "httplib" ∧ a = "HTTPSConnection" then 1
  else if t = "urllib3.connection" ∧ a = "VerifiedHTTPSConnection" then 2
  else if t = "urllib3.connection" ∧ a = "HTTPConnection" then 3
  else if t = "urllib3.connection" ∧ a = "HTTPSConnection" then 4
  else if t = "urllib3.connectionpool.HTTPConnectionPool" ∧ a = "ConnectionCls" then 3
  else if t = "urllib3.connectionpool.HTTPSConnectionPool" ∧ a = "ConnectionCls" then 4
  else if t = "botocore.awsrequest.AWSHTTPConnectionPool" ∧ a = "ConnectionCls" then 5
  else if t = "botocore.awsrequest.AWSHTTPSConnectionPool" ∧ a = "ConnectionCls" then 6
  else if t = "botocore.awsrequest" ∧ a = "AWSHTTPSConnection" then 6
  else if t = "httplib2" ∧ a = "HTTPConnectionWithTimeout" then 7
  else if t = "httplib2" ∧ a = "HTTPSConnectionWithTimeout" then 8
  else if t = "httplib2" ∧ a = "SCHEME_TO_CONNECTION" then 9
  else if t = "boto.https_connection" ∧ a = "CertValidatingHTTPSConnection" then 10
  else if t = "tornado.simple_httpclient.SimpleAsyncHTTPClient" ∧ a = "fetch_impl" then 11
  else if t = "tornado.curl_httpclient.CurlAsyncHTTPClient" ∧ a = "fetch_impl" then 12
  else 1000

/-- `reset_patchers`: the seams it yields patchers for (each patcher
reinstalls the original saved at load time), with the source's import
probes and `hasattr` checks. -/
def resetSeams (env : Env) : List (String × String) :=
  [("httplib", "HTTPConnection"), ("httplib", "HTTPSConnection")]
  ++ (if env.urllib3 then
       [("urllib3.connection", "VerifiedHTTPSConnection"),
        ("urllib3.connection", "HTTPConnection"),
        ("urllib3.connection", "HTTPSConnection")]
       ++ (if env.hasAttr "urllib3.connectionpool.HTTPConnectionPool" "ConnectionCls" then
            [("urllib3.connectionpool.HTTPConnectionPool", "ConnectionCls"),
             ("urllib3.connectionpool.HTTPSConnectionPool", "ConnectionCls")]
           else [])
      else [])
  ++ (if env.boto3 then
       (if env.hasAttr "botocore.awsrequest.AWSHTTPConnectionPool" "ConnectionCls" then
          [("botocore.awsrequest.AWSHTTPConnectionPool", "ConnectionCls"),
           ("botocore.awsrequest.AWSHTTPSConnectionPool", "ConnectionCls")]
        else [])
       ++ (if env.hasAttr "botocore.awsrequest" "AWSHTTPSConnection" then
            [("botocore.awsrequest", "AWSHTTPSConnection")]
           else [])
      else [])
  ++ (if env.httplib2 then
       [("httplib2", "HTTPConnectionWithTimeout"),
        ("httplib2", "HTTPSConnectionWithTimeout"),
        ("httplib2", "SCHEME_TO_CONNECTION")]
      else [])
  ++ (if env.boto then
       [("boto.https_connection", "CertValidatingHTTPSConnection")]
      else [])
  ++ (if env.tornadoSimple then
       [("tornado.simple_httpclient.SimpleAsyncHTTPClient", "fetch_impl")]
      else [])
  ++ (if env.tornadoCurl then
       [("tornado.curl_httpclient.CurlAsyncHTTPClient", "fetch_impl")]
      else [])

/-- `force_reset`: enter every patcher `reset_patchers` yields, i.e.
overwrite each of its seams with the original pre-session value,
regardless of the seam's current value. -/
def forceReset (env : Env) (s : Store) : Store :=
  (resetSeams env).foldl (fun acc p => setStore acc p.1 p.2 (originalValue p.1 p.2)) s

/-- The seam a built item patches, if it is a patch handle. -/
def itemSeam : Item → Option (String × String)
  | .patch p => some (p.target, p.attr)
  | .guard _ => none

/-- An environment in which every optional backend imported successfully
and every probed attribute exists. -/
def envAll : Env where
  hasAttr := fun _ _ => true
  requestsLib := true
  boto3 := true
  urllib3 := true
  httplib2 := true
  boto := true
  tornadoSimple := true
  tornadoCurl := true
  aiohttp := true
  httpx := true

theorem foldl_setStore_original (t a : String) :
    ∀ (l : List (String × String)) (acc : Store),
      ((t, a) ∈ l ∨ acc t a = originalValue t a) →
      (l.foldl (fun acc2 p => setStore acc2 p.1 p.2 (originalValue p.1 p.2)) acc) t a =
        originalValue t a := by
  intro l
  induction l with
  | nil =>
    intro acc h
    exact h.resolve_left (by simp)
  | cons p rest ih =>
    intro acc h
    rw [List.foldl_cons]
    apply ih
    by_cases hp : (t, a) = p
    · right
      unfold setStore
      rw [if_pos ⟨congrArg Prod.fst hp, congrArg Prod.snd hp⟩]
      rw [← congrArg Prod.fst hp, ← congrArg Prod.snd hp]
    · rcases h with hmem | hacc
      · rcases List.mem_cons.mp hmem with he | hmem2
        · exact absurd he hp
        · exact Or.inl hmem2
      · right
        unfold setStore
        rw [if_neg ?_, hacc]
        intro hand
        exact hp (Prod.ext hand.1 hand.2)

/-- Claim C9, counterexample: the aiohttp adapter patches the seam
`aiohttp.client.ClientSession._request`, but `reset_patchers` yields no
patcher for it, so entering `force_reset` leaves that adapter-patched
seam holding the session substitute (999) instead of restoring its
original. -/
theorem forceReset_misses_seam_counterexample :
    ("aiohttp.client.ClientSession", "_request") ∈
      ((build envAll ⟨0, [], 10⟩ []).1.filterMap itemSeam) ∧
    ("aiohttp.client.ClientSession", "_request") ∉ resetSeams envAll ∧
    forceReset envAll (fun _ _ => 999) "aiohttp.client.ClientSession" "_request" = 999 := by
  refine ⟨by decide, by decide, by decide⟩

/-- Claim C9 (amended): entering `force_reset` restores every seam that
`reset_patchers` covers — the httplib, urllib3 connection-class, boto3,
httplib2, boto and tornado seams — to its original pre-load value,
regardless of the seam's current state; but the seams patched only by
the urllib3/requests pool wrappers (`is_connection_dropped`, `_get_conn`,
`_new_conn`), by the aiohttp adapter and by the httpx adapter are not
covered and keep their current value. -/
theorem forceReset_restores (env : Env) (s : Store) (t a : String)
    (h : (t, a) ∈ resetSeams env) :
    forceReset env s t a = originalValue t a := by
  unfold forceReset
  exact foldl_setStore_original t a (resetSeams env) s (Or.inl h)

/-- Claim C9, witness: the httplib connection seam is restored from an
arbitrary polluted value. -/
theorem forceReset_restores_witness :
    ("httplib", "HTTPConnection") ∈ resetSeams envAll ∧
    forceReset envAll (fun _ _ => 999) "httplib" "HTTPConnection" =
      originalValue "httplib" "HTTPConnection" :=
  ⟨by decide, forceReset_restores envAll (fun _ _ => 999) "httplib" "HTTPConnection" (by decide)⟩

end VcrPatch
